import Mathlib

/-!
Shallow embedding of the WhatsApp chat parsing core of the repository
(src/src/utils/performanceUtils.js and src/src/utils/pollParser.js), together
with theorems settling the frozen claims about it.

Conventions of the embedding:
- JavaScript strings are modelled by Lean `String` (a list of characters);
  all scanners work on `List Char` and are wrapped at the `String` boundary.
  The inputs the code feeds to every matcher are single lines produced by
  splitting on the newline character and trimming, so the JavaScript regex
  distinction between `.` and the newline character never bites; matchers are
  therefore defined for such single-line inputs.
- The file table (a JavaScript `Map` from file name to blob) is modelled as the
  list of available file names; the code only ever calls `get` and tests the
  result for truthiness, so only name membership is observable.  The `blob`
  field of an attachment (a reference into the table) is omitted for the same
  reason.
- `id: Date.now() + index` and `timestamp: new Date(...).getTime()` are
  host-clock and host-locale dependent; the model keeps the line index (the
  deterministic part of `id`) and drops the timestamp, which no claim touches.
-/

/-- The character class of the regexes `\d` (ASCII digits). -/
def isDigitChar (c : Char) : Bool := c.isDigit

/-- The character class `\s` of the regexes, restricted to the ASCII whitespace
the inputs contain (space, tab, carriage return, line feed). -/
def isWsChar (c : Char) : Bool := c.isWhitespace

/-- The character class `[APMapm]` of the header regex. -/
def isApmChar (c : Char) : Bool :=
  c == 'A' || c == 'P' || c == 'M' || c == 'a' || c == 'p' || c == 'm'

/-- JavaScript `split(sep)` for a one-character separator. -/
def splitOnChar (sep : Char) : List Char → List (List Char)
  | [] => [[]]
  | c :: rest =>
    match splitOnChar sep rest with
    | [] => [[]]
    | l :: ls => if c = sep then [] :: l :: ls else (c :: l) :: ls

/-- JavaScript `trim()` on a character list. -/
def trimChars (cs : List Char) : List Char :=
  ((cs.dropWhile isWsChar).reverse.dropWhile isWsChar).reverse

/-- JavaScript `trim()` on a string. -/
def strTrim (s : String) : String := String.mk (trimChars s.data)

/-- JavaScript `toLowerCase()` (ASCII range, which is all the literals need). -/
def lowerStr (s : String) : String := String.mk (s.data.map Char.toLower)

/-- Substring test, as JavaScript `includes`. -/
def containsSub (pat : List Char) : List Char → Bool
  | [] => pat.isEmpty
  | c :: cs => pat.isPrefixOf (c :: cs) || containsSub pat cs

/-- JavaScript `s.includes(pat)`. -/
def strContains (s pat : String) : Bool := containsSub pat.data s.data

/-- Match a literal tag case-insensitively at the head of the input, as a
regex literal under the `i` flag does; returns the actual characters matched
(original casing) and the remainder. -/
def dropCiTag : List Char → List Char → Option (List Char × List Char)
  | [], cs => some ([], cs)
  | _ :: _, [] => none
  | p :: ps, c :: cs =>
    if p.toLower == c.toLower then
      match dropCiTag ps cs with
      | some (t, r) => some (c :: t, r)
      | none => none
    else none

/-- Numeric value of a digit run, as `parseInt(_, 10)` on a `\d+` capture. -/
def digitsToNat (ds : List Char) : Nat :=
  ds.foldl (fun n c => n * 10 + (c.toNat - 48)) 0

/-- The header pattern of `parseChat` (performanceUtils.js line 520):
`/^(\d{1,2}\/\d{1,2}\/\d{2,4}),\s*(\d{1,2}:\d{2}\s*[APMapm]{2})\s*-\s*(.+)$/i`
matched against a trimmed line, returning the three captured groups
(date, time, rest).  The digit runs are delimited by non-digit characters, so
the greedy bounded repetitions reduce to length checks on maximal digit runs;
the am or pm marker is exactly two characters of the class `[APMapm]`; the
final group `(.+)` is the nonempty remainder after the dash and the optional
whitespace around it (the line is trimmed, so it ends in a non-whitespace
character whenever it is nonempty). -/
def matchHeaderChars (cs : List Char) : Option (List Char × List Char × List Char) :=
  let (mo, r1) := cs.span isDigitChar
  if mo.length < 1 || 2 < mo.length then none else
  match r1 with
  | '/' :: r2 =>
    let (da, r3) := r2.span isDigitChar
    if da.length < 1 || 2 < da.length then none else
    match r3 with
    | '/' :: r4 =>
      let (yr, r5) := r4.span isDigitChar
      if yr.length < 2 || 4 < yr.length then none else
      match r5 with
      | ',' :: r6 =>
        let r7 := r6.dropWhile isWsChar
        let (hh, r8) := r7.span isDigitChar
        if hh.length < 1 || 2 < hh.length then none else
        match r8 with
        | ':' :: r9 =>
          let (mi, r10) := r9.span isDigitChar
          if mi.length ≠ 2 then none else
          let ws2 := r10.takeWhile isWsChar
          match r10.dropWhile isWsChar with
          | a :: p :: r12 =>
            if isApmChar a && isApmChar p then
              match r12.dropWhile isWsChar with
              | '-' :: r14 =>
                let rest := r14.dropWhile isWsChar
                if rest.isEmpty then none
                else
                  some (mo ++ '/' :: da ++ '/' :: yr,
                        hh ++ ':' :: mi ++ ws2 ++ [a, p],
                        rest)
              | _ => none
            else none
          | _ => none
        | _ => none
      | _ => none
    | _ => none
  | _ => none

/-- String wrapper for the header pattern. -/
def matchHeader (l : String) : Option (String × String × String) :=
  match matchHeaderChars l.data with
  | some (d, t, r) => some (String.mk d, String.mk t, String.mk r)
  | none => none

example : matchHeader "1/2/24, 10:30 AM - Alice: Hello" =
    some ("1/2/24", "10:30 AM", "Alice: Hello") := by decide

example : matchHeader "1/2/24, 10:30 - Alice: Hello" = none := by decide

example : matchHeader "12/31/2024, 9:05pM - x" = some ("12/31/2024", "9:05pM", "x") := by decide

example : matchHeader "World" = none := by decide

/-- An attachment descriptor, as built by `extractAttachment`
(performanceUtils.js lines 601-659).  The `blob` field of the source (a
reference to the entry of the file table) is determined by `filename` and the
table and carries no further observable structure, so it is omitted. -/
structure Attachment where
  filename : String
  type : String
  originalText : String
  deriving DecidableEq

/-- File category from the extension, `getFileType`
(performanceUtils.js lines 703-717): lower-case the name, split on the dot,
take the last piece, and look it up in the fixed extension tables. -/
def getFileType (filename : String) : String :=
  let ext := String.mk ((splitOnChar '.' (lowerStr filename).data).getLastD [])
  if ["jpg", "jpeg", "png", "gif", "webp", "bmp", "svg"].contains ext then "image"
  else if ["mp4", "avi", "mov", "wmv", "flv", "webm"].contains ext then "video"
  else if ["mp3", "wav", "ogg", "aac", "m4a", "flac"].contains ext then "audio"
  else if ["pdf", "doc", "docx", "xls", "xlsx", "ppt", "pptx", "txt"].contains ext then "document"
  else "unknown"

/-- Pattern 1 of `extractAttachment`, tried at one position: the regex
`/<attached:\s*([^>]+)>/i` matches here when the literal tag is followed by a
nonempty run of characters other than the closing bracket and then the
closing bracket.  The `\s*` and `[^>]+` parts together cover exactly that run
(whitespace is not the closing bracket), and the `[^>]+` capture trims to the
same name the run trims to, so the run is returned as the capture.
Returns (captured run, full matched text). -/
def tryAttachedAt (cs : List Char) : Option (List Char × List Char) :=
  match dropCiTag ['<', 'a', 't', 't', 'a', 'c', 'h', 'e', 'd', ':'] cs with
  | some (tag, r) =>
    let (run, r2) := r.span (fun c => c ≠ '>')
    match r2 with
    | '>' :: _ => if run.isEmpty then none else some (run, tag ++ run ++ ['>'])
    | _ => none
  | none => none

/-- Leftmost match of pattern 1, as the unanchored regex search does. -/
def findAttachedTag : List Char → Option (List Char × List Char)
  | [] => none
  | c :: cs =>
    match tryAttachedAt (c :: cs) with
    | some r => some r
    | none => findAttachedTag cs

/-- The literal `\((file|image)\s+attached\)` tail of pattern 2 of
`extractAttachment`, tried at one position; returns the matched characters. -/
def parenTagAt (cs : List Char) : Option (List Char) :=
  match cs with
  | [] => none
  | c :: r =>
    if c = '(' then
      let word := match dropCiTag ['f', 'i', 'l', 'e'] r with
                  | some x => some x
                  | none => dropCiTag ['i', 'm', 'a', 'g', 'e'] r
      match word with
      | some (w, r2) =>
        let ws := r2.takeWhile isWsChar
        if ws.isEmpty then none else
        match dropCiTag ['a', 't', 't', 'a', 'c', 'h', 'e', 'd'] (r2.dropWhile isWsChar) with
        | some (w2, r4) =>
          match r4 with
          | ')' :: _ => some ('(' :: w ++ ws ++ w2 ++ [')'])
          | _ => none
        | none => none
      | none => none
    else none

/-- Pattern 2 of `extractAttachment`, the regex
`/(.+?)\s*\((file|image)\s+attached\)/i`: the lazy capture grows one character
at a time from the start of the text, and after each step the greedy `\s*` can
only stop at the parenthesis, which is not whitespace, so the marker is looked
for after the whitespace run that follows the capture.
Returns (capture, full matched text). -/
def scanParenGrow : List Char → List Char → Option (List Char × List Char)
  | _, [] => none
  | g1, c :: rest =>
    let g1x := g1 ++ [c]
    let ws := rest.takeWhile isWsChar
    match parenTagAt (rest.dropWhile isWsChar) with
    | some marker => some (g1x, g1x ++ ws ++ marker)
    | none => scanParenGrow g1x rest

/-- First extension alternative of a regex alternation matching as a prefix at
the position, original casing kept; the alternatives are listed in the order
the regex tries them (an optional trailing letter expands greedily, so the
longer spelling precedes the shorter one). -/
def extTagAt (exts : List (List Char)) (r : List Char) : Option (List Char) :=
  match exts with
  | [] => none
  | e :: es =>
    match dropCiTag e r with
    | some (t2, _) => some t2
    | none => extTagAt es r

/-- The camera-file half of pattern 3 of `extractAttachment`:
`IMG-\d+\.(jpg|jpeg|png|gif|webp|mp4)` under the `i` flag, at one position. -/
def imgNameAt (cs : List Char) : Option (List Char) :=
  match dropCiTag ['I', 'M', 'G', '-'] cs with
  | some (t, r) =>
    let (ds, r2) := r.span isDigitChar
    if ds.isEmpty then none else
    match r2 with
    | '.' :: r3 =>
      match extTagAt [['j','p','g'], ['j','p','e','g'], ['p','n','g'], ['g','i','f'],
                      ['w','e','b','p'], ['m','p','4']] r3 with
      | some e => some (t ++ ds ++ '.' :: e)
      | none => none
    | _ => none
  | none => none

/-- The document half of pattern 3:
`Document-\d+\.(pdf|docx?|xlsx?|pptx?|txt|mp3|wav|ogg)` under the `i` flag, at
one position.  The optional letters expand greedily, so `docx` is tried before
`doc`, and likewise for the other two. -/
def docNameAt (cs : List Char) : Option (List Char) :=
  match dropCiTag ['D', 'o', 'c', 'u', 'm', 'e', 'n', 't', '-'] cs with
  | some (t, r) =>
    let (ds, r2) := r.span isDigitChar
    if ds.isEmpty then none else
    match r2 with
    | '.' :: r3 =>
      match extTagAt [['p','d','f'], ['d','o','c','x'], ['d','o','c'],
                      ['x','l','s','x'], ['x','l','s'], ['p','p','t','x'], ['p','p','t'],
                      ['t','x','t'], ['m','p','3'], ['w','a','v'], ['o','g','g']] r3 with
      | some e => some (t ++ ds ++ '.' :: e)
      | none => none
    | _ => none
  | none => none

/-- Leftmost match of pattern 3 (the alternation tries the camera shape and
then the document shape at each position; their leading literals are disjoint). -/
def findBareName : List Char → Option (List Char)
  | [] => none
  | c :: cs =>
    match imgNameAt (c :: cs) with
    | some r => some r
    | none =>
      match docNameAt (c :: cs) with
      | some r => some r
      | none => findBareName cs

/-- Pattern 1 with the file-table lookup (performanceUtils.js lines 604-620). -/
def attachFromTag (cs : List Char) (files : List String) : Option Attachment :=
  match findAttachedTag cs with
  | some (run, whole) =>
    let filename := String.mk (trimChars run)
    if files.contains filename then
      some ⟨filename, getFileType filename, String.mk whole⟩
    else none
  | none => none

/-- Pattern 2 with the file-table lookup (lines 622-638). -/
def attachFromParen (cs : List Char) (files : List String) : Option Attachment :=
  match scanParenGrow [] cs with
  | some (g1, whole) =>
    let filename := String.mk (trimChars g1)
    if files.contains filename then
      some ⟨filename, getFileType filename, String.mk whole⟩
    else none
  | none => none

/-- Pattern 3 with the file-table lookup (lines 640-656); the matched name is
both the filename and the text to strip. -/
def attachFromBare (cs : List Char) (files : List String) : Option Attachment :=
  match findBareName cs with
  | some name =>
    let filename := String.mk name
    if files.contains filename then
      some ⟨filename, getFileType filename, filename⟩
    else none
  | none => none

/-- `extractAttachment` (performanceUtils.js lines 601-659): try the three
patterns in order; a pattern whose structural match succeeds but whose name is
not in the table contributes nothing and the next pattern is tried. -/
def extractAttachment (messageText : String) (files : List String) : Option Attachment :=
  if messageText.data.isEmpty then none
  else
    match attachFromTag messageText.data files with
    | some a => some a
    | none =>
      match attachFromParen messageText.data files with
      | some a => some a
      | none => attachFromBare messageText.data files

example : extractAttachment "<attached: photo.jpg>" ["photo.jpg"] =
    some ⟨"photo.jpg", "image", "<attached: photo.jpg>"⟩ := by decide

example : extractAttachment "<attached: missing.jpg>" [] = none := by decide

example : extractAttachment "<attached: missing.jpg> IMG-1.jpg" ["IMG-1.jpg"] =
    some ⟨"IMG-1.jpg", "image", "IMG-1.jpg"⟩ := by decide

example : extractAttachment "pic.png (image attached)" ["pic.png"] =
    some ⟨"pic.png", "image", "pic.png (image attached)"⟩ := by decide

example : extractAttachment "Hello" ["photo.jpg"] = none := by decide

/-- `getSystemMessageType` (performanceUtils.js lines 666-696): priority
ordered case-insensitive substring checks over the message body. -/
def getSystemMessageType (message : String) : String :=
  let m := lowerStr message
  if strContains m "joined using this group\x27s invite link" ||
     strContains m "joined" || strContains m "added" then "joined"
  else if strContains m "removed" || strContains m "left" then "left"
  else if strContains m "created group" || strContains m "group created" then "created"
  else if strContains m "changed the group name" ||
          strContains m "group name changed" then "name_changed"
  else if strContains m "changed group description" ||
          strContains m "group description changed" then "description_changed"
  else if strContains m "changed this group\x27s icon" ||
          strContains m "group icon changed" then "icon_changed"
  else if strContains m "messages and calls are end-to-end encrypted" then "encryption"
  else if strContains m "ended" || strContains m "deleted" then "ended"
  else "other"

example : getSystemMessageType "Bob joined using this group\x27s invite link" = "joined" := by
  decide

/-- A parsed message record, as built by `parseChat`
(performanceUtils.js lines 550-574).  `idx` keeps the deterministic line-index
part of the `id` field; the `timestamp` field (host-locale date parsing) is
not modelled, no claim mentions it.  `systemType` is `none` on authored
messages, which in the source simply lack the field. -/
structure Message where
  idx : Nat
  date : String
  time : String
  sender : String
  message : String
  attachment : Option Attachment
  type : String
  systemType : Option String
  deriving DecidableEq

/-- Index of the first colon, as `content.indexOf(a colon)`; the source
compares the result with 0, treating both the missing case (-1) and position 0
as no qualifying colon. -/
def colonIdxOf (cs : List Char) : Option Nat := cs.findIdx? (fun c => c = ':')

/-- Strip a resolved attachment from the message text:
`messageText.replace(attachment.originalText, ...)` with a string pattern
replaces the first occurrence only, and the result is trimmed
(performanceUtils.js lines 545-548). -/
def removeFirstOcc (pat : List Char) : List Char → List Char
  | [] => []
  | c :: cs =>
    if pat.isPrefixOf (c :: cs) then (c :: cs).drop pat.length
    else c :: removeFirstOcc pat cs

/-- The stripped final message text of an authored message with a resolved
attachment. -/
def stripAttachment (messageText : String) (a : Attachment) : String :=
  String.mk (trimChars (removeFirstOcc a.originalText.data messageText.data))

/-- The system-message record built from a header line whose rest has no
qualifying colon (performanceUtils.js lines 560-575). -/
def systemMsg (idx : Nat) (date time content : String) : Message :=
  ⟨idx, date, time, "System", content, none, "system",
   some (getSystemMessageType content)⟩

/-- The authored-message record built from a header line whose rest splits at
the first colon at position `i > 0` (performanceUtils.js lines 535-559). -/
def authoredMsg (files : List String) (idx : Nat) (date time content : String)
    (i : Nat) : Message :=
  let sender := String.mk (trimChars (content.data.take i))
  let messageText := String.mk (trimChars (content.data.drop (i + 1)))
  let attachment := extractAttachment messageText files
  let finalText := match attachment with
                   | some a => stripAttachment messageText a
                   | none => messageText
  ⟨idx, date, time, sender, finalText, attachment, "message", none⟩

/-- The message a header line starts: split the trimmed rest at its first
colon when that colon has a nonempty left side; otherwise the whole rest is a
system message (performanceUtils.js lines 528-575). -/
def headerMsg (files : List String) (idx : Nat) (date time rest : String) : Message :=
  let content := strTrim rest
  match colonIdxOf content.data with
  | some i =>
    if 0 < i then authoredMsg files idx date time content i
    else systemMsg idx date time content
  | none => systemMsg idx date time content

/-- Push the still accumulating message, as done both when a new header line
arrives (performanceUtils.js lines 524-526) and after the last line
(lines 583-585). -/
def finalizeState : List Message × Option Message → List Message
  | (msgs, some m) => msgs ++ [m]
  | (msgs, none) => msgs

/-- One step of the `lines.forEach` state machine of `parseChat`
(performanceUtils.js lines 515-580).  The state is the pair of the finished
messages and the message being accumulated.  A header line finalizes the
accumulating message and starts a new one; a non-header line is appended to
the accumulating message when there is one and dropped otherwise. -/
def processLine (files : List String) (st : List Message × Option Message)
    (idx : Nat) (line : String) : List Message × Option Message :=
  match matchHeader line with
  | some (date, time, rest) =>
    (finalizeState st, some (headerMsg files idx date time rest))
  | none =>
    match st.2 with
    | some m => (st.1, some { m with message := m.message ++ "\n" ++ line })
    | none => st

/-- The indexed fold of `processLine` over the lines. -/
def runLines (files : List String) : Nat → (List Message × Option Message) →
    List String → List Message × Option Message
  | _, st, [] => st
  | i, st, l :: ls => runLines files (i + 1) (processLine files st i l) ls

/-- `parseChat` on the already split and trimmed lines. -/
def parseChatLines (files : List String) (lines : List String) : List Message :=
  finalizeState (runLines files 0 ([], none) lines)

/-- Strip a leading byte-order mark (performanceUtils.js lines 498-500). -/
def stripBOM (s : String) : String :=
  match s.data with
  | c :: rest => if c.toNat = 0xFEFF then String.mk rest else s
  | [] => s

/-- The line list `parseChat` works on: split the content on the newline
character and trim every line (performanceUtils.js line 502). -/
def linesOf (chatContent : String) : List String :=
  (splitOnChar '\n' (stripBOM chatContent).data).map (fun cs => String.mk (trimChars cs))

/-- `parseChat` (performanceUtils.js lines 495-593). -/
def parseChat (chatContent : String) (files : List String) : List Message :=
  parseChatLines files (linesOf chatContent)

example : parseChat "1/2/24, 10:30 AM - Alice: Hello\nWorld" [] =
    [⟨0, "1/2/24", "10:30 AM", "Alice", "Hello\nWorld", none, "message", none⟩] := by decide

example : parseChat "1/2/24, 10:31 AM - Bob joined using this group\x27s invite link" [] =
    [⟨0, "1/2/24", "10:31 AM", "System", "Bob joined using this group\x27s invite link",
      none, "system", some "joined"⟩] := by decide

example : parseChat "1/2/24, 10:30 AM - Alice: <attached: photo.jpg>" ["photo.jpg"] =
    [⟨0, "1/2/24", "10:30 AM", "Alice", "",
      some ⟨"photo.jpg", "image", "<attached: photo.jpg>"⟩, "message", none⟩] := by decide

example : parseChat "1/2/24, 10:30 AM - Alice: Hi\n<attached: photo.jpg>" ["photo.jpg"] =
    [⟨0, "1/2/24", "10:30 AM", "Alice", "Hi\n<attached: photo.jpg>",
      none, "message", none⟩] := by decide

/-- One option of a poll, `{ text, votes }` (pollParser.js lines 65-68). -/
structure PollOption where
  text : String
  votes : Nat
  deriving DecidableEq

/-- The structure returned by `parsePollMessage` (pollParser.js lines 94-99). -/
structure Poll where
  title : String
  options : List PollOption
  totalVotes : Nat
  maxVotes : Nat
  deriving DecidableEq

/-- The trimmed nonempty lines `parsePollMessage` works on
(pollParser.js lines 14-18). -/
def pollLines (message : String) : List String :=
  ((splitOnChar '\n' (trimChars message.data)).map
    (fun cs => String.mk (trimChars cs))).filter (fun l => l ≠ "")

/-- The chart-symbol indicator literal of pollParser.js line 27.  The source
file stores it mojibake-encoded: the utf-8 bytes of the original emoji were
read back as individual code points, so the program searches for this
four-character sequence, never for the emoji itself. -/
def pollChartChars : List Char := ['\u00F0', '\u0178', '\u201C', '\u0160']

/-- The ballot-box indicator literal of pollParser.js line 28, mojibake
encoded like the chart symbol; the final byte of the original sequence has no
code point in the intermediate encoding and was lost, leaving these six
characters. -/
def ballotChars : List Char :=
  ['\u00F0', '\u0178', '\u2014', '\u00B3', '\u00EF', '\u00B8']

/-- The bullet literal of pollParser.js lines 37 and 54 (mojibake encoded). -/
def bulletChars : List Char := ['\u00E2', '\u20AC', '\u00A2']

/-- The check-mark literal of pollParser.js lines 38 and 54 (mojibake
encoded). -/
def checkChars : List Char := ['\u00E2', '\u0153', '\u201C']

/-- The boxed-check literal of pollParser.js lines 39 and 54 (mojibake
encoded). -/
def boxCheckChars : List Char := ['\u00E2', '\u02DC', '\u2018']

/-- The poll indicator test on the first line (pollParser.js lines 24-28):
case-sensitive `includes` of the three `POLL:` spellings and of the two
mojibake symbol sequences exactly as the source file stores them. -/
def hasPollTag (l0 : String) : Bool :=
  strContains l0 "POLL:" || strContains l0 "Poll:" || strContains l0 "poll:" ||
  strContains l0 (String.mk pollChartChars) || strContains l0 (String.mk ballotChars)

/-- The option indicator test on a line (pollParser.js lines 33-40):
case-sensitive `includes` of the three `OPTION:` spellings and of the three
mojibake bullet sequences exactly as the source file stores them. -/
def hasOptionTag (l : String) : Bool :=
  strContains l "OPTION:" || strContains l "Option:" || strContains l "option:" ||
  strContains l (String.mk bulletChars) || strContains l (String.mk checkChars) ||
  strContains l (String.mk boxCheckChars)

/-- Strip the `POLL:` label from the title line: the anchored regex
`/^(POLL:|Poll:|poll:)\s*/i` (all three alternatives coincide under the `i`
flag) removes the label and the following whitespace when present, and the
result is trimmed (pollParser.js line 47). -/
def dropPollTag (l0 : String) : String :=
  match dropCiTag ['p', 'o', 'l', 'l', ':'] l0.data with
  | some (_, r) => String.mk (trimChars (r.dropWhile isWsChar))
  | none => String.mk (trimChars l0.data)

/-- The title of the poll (pollParser.js lines 45-50): the first line with the
label stripped when it carries one of the three exact-case `POLL:` spellings,
the second line otherwise. -/
def pollTitle (lines : List String) : String :=
  let l0 := lines.headD ""
  if strContains l0 "POLL:" || strContains l0 "Poll:" || strContains l0 "poll:" then
    dropPollTag l0
  else if 1 < lines.length then (lines.get? 1).getD "" else ""

/-- The `\((\d+)` core of both option patterns at one position: a parenthesis
followed by a nonempty digit run; returns the digits and the remainder. -/
def parenNumAt (cs : List Char) : Option (List Char × List Char) :=
  match cs with
  | '(' :: r =>
    let (ds, r2) := r.span isDigitChar
    if ds.isEmpty then none else some (ds, r2)
  | _ => none

/-- Completion of the unanchored option pattern after the capture:
`\s*\((\d+).*?\)` succeeds when the whitespace run is followed by the
parenthesized digits and a closing parenthesis appears anywhere later. -/
def optTailDone (cs : List Char) : Option (List Char) :=
  match parenNumAt (cs.dropWhile isWsChar) with
  | some (ds, r2) => if r2.contains ')' then some ds else none
  | none => none

/-- Completion of the anchored simple option pattern after the capture:
`\s*\((\d+).*?\)$` additionally pins the closing parenthesis to the end of the
line. -/
def optTailDoneEnd (cs : List Char) : Option (List Char) :=
  match parenNumAt (cs.dropWhile isWsChar) with
  | some (ds, r2) =>
    match r2.getLast? with
    | some c => if c = ')' then some ds else none
    | none => none
  | none => none

/-- Lazy growth of a `(.+?)` capture: the capture takes one more character and
the completion is tried after it, until it succeeds.  Returns
(capture, digits). -/
def lazyGrow (done : List Char → Option (List Char)) :
    List Char → List Char → Option (List Char × List Char)
  | _, [] => none
  | g1, c :: rest =>
    let g1x := g1 ++ [c]
    match done rest with
    | some ds => some (g1x, ds)
    | none => lazyGrow done g1x rest

/-- The tail of the prefixed option regex after its indicator token:
`\s*(.+?)\s*\((\d+).*?\)`.  The greedy leading `\s*` is consumed first and the
capture grows from the first non-whitespace character; when no completion is
found there, the engine backtracks the leading whitespace by one character,
which makes that last whitespace character the capture and retries the
completion at the non-whitespace base position (further backtracking only
repeats checks that already failed). -/
def optionTailMatch (r : List Char) : Option (List Char × List Char) :=
  let ws := r.takeWhile isWsChar
  let base := r.dropWhile isWsChar
  match lazyGrow optTailDone [] base with
  | some x => some x
  | none =>
    match ws.getLast? with
    | some c =>
      match optTailDone base with
      | some ds => some ([c], ds)
      | none => none
    | none => none

/-- The option indicator token of the prefixed option regex at one position:
one of the three `OPTION:` spellings (which under the `i` flag all match the
same case-insensitive label) or one of the three mojibake bullet sequences,
in the alternation order of pollParser.js line 54 (a backslash before the
first bullet character is an identity escape).  On the bullet sequences the
case-insensitive tag match coincides with the exact sequence, which is the
form every input of interest carries. -/
def optionTokenAt (cs : List Char) : Option (List Char) :=
  match dropCiTag ['o', 'p', 't', 'i', 'o', 'n', ':'] cs with
  | some (_, r) => some r
  | none =>
    match dropCiTag bulletChars cs with
    | some (_, r) => some r
    | none =>
      match dropCiTag checkChars cs with
      | some (_, r) => some r
      | none =>
        match dropCiTag boxCheckChars cs with
        | some (_, r) => some r
        | none => none

/-- Leftmost match of the prefixed option regex of pollParser.js line 54,
`/(?:OPTION:|Option:|option:|...)\s*(.+?)\s*\((\d+).*?\)/i` where the elided
alternatives are the three mojibake bullet sequences: scan for an indicator
token whose tail completes. -/
def findOptionTagMatch : List Char → Option (List Char × List Char)
  | [] => none
  | c :: cs =>
    match optionTokenAt (c :: cs) with
    | some r =>
      match optionTailMatch r with
      | some x => some x
      | none => findOptionTagMatch cs
    | none => findOptionTagMatch cs

/-- The anchored fallback pattern `/^(.+?)\s*\((\d+).*?\)$/`
(pollParser.js line 72). -/
def simpleOptionMatch (cs : List Char) : Option (List Char × List Char) :=
  lazyGrow optTailDoneEnd [] cs

/-- Extract the option of one line (pollParser.js lines 56-84): try the
prefixed pattern; on a structural match with an empty trimmed capture the line
yields nothing (the fallback is not tried); otherwise try the anchored simple
pattern.  The digit capture always parses, so the not-a-number guards of the
source never fire. -/
def optionFromLine (line : String) : Option PollOption :=
  match findOptionTagMatch line.data with
  | some (g1, ds) =>
    let text := String.mk (trimChars g1)
    if text = "" then none else some ⟨text, digitsToNat ds⟩
  | none =>
    match simpleOptionMatch line.data with
    | some (g1, ds) =>
      let text := String.mk (trimChars g1)
      if text = "" then none else some ⟨text, digitsToNat ds⟩
    | none => none

/-- The option scan of `parsePollMessage` (pollParser.js lines 53-85): every
line from the second one on, in order. -/
def scanOptions (lines : List String) : List PollOption :=
  (lines.drop 1).foldl
    (fun acc line =>
      match optionFromLine line with
      | some o => acc ++ [o]
      | none => acc) []

/-- `totalVotes` (pollParser.js line 91). -/
def sumVotes (options : List PollOption) : Nat :=
  options.foldl (fun s o => s + o.votes) 0

/-- `Math.max` over the vote counts (pollParser.js line 92). -/
def maxVotesRaw (options : List PollOption) : Nat :=
  (options.map (fun o => o.votes)).foldr Nat.max 0

/-- `maxVotes || 1` (pollParser.js line 98). -/
def maxVotesFloor (options : List PollOption) : Nat :=
  if maxVotesRaw options = 0 then 1 else maxVotesRaw options

/-- `parsePollMessage` (pollParser.js lines 11-100).  The leading falsy check
covers the empty string; the non-string typeof arm is outside a typed
embedding. -/
def parsePollMessage (message : String) : Option Poll :=
  if message = "" then none
  else
    let lines := pollLines message
    if lines.length < 3 then none
    else if !hasPollTag (lines.headD "") then none
    else if !lines.any hasOptionTag then none
    else
      let options := scanOptions lines
      if options.length < 2 then none
      else
        let title := pollTitle lines
        some ⟨if title = "" then "Poll" else title,
              options, sumVotes options, maxVotesFloor options⟩

example : parsePollMessage "POLL: Lunch?\nOPTION: Pizza (3 votes)\nOPTION: Sushi (1 vote)" =
    some ⟨"Lunch?", [⟨"Pizza", 3⟩, ⟨"Sushi", 1⟩], 4, 3⟩ := by decide

example : parsePollMessage "POLL: Lunch?\nOPTION: Pizza (3 votes)" = none := by decide

example : parsePollMessage
    "\u00F0\u0178\u201C\u0160 Vote\nLunch (2)\n\u00E2\u20AC\u00A2 Pizza (3)" =
    some ⟨"Lunch (2)", [⟨"Lunch", 2⟩, ⟨"Pizza", 3⟩], 5, 3⟩ := by decide

example : parsePollMessage
    "POLL: A (9)\n\u00E2\u20AC\u00A2 B (1)\n\u00E2\u20AC\u00A2 C (2)" =
    some ⟨"A (9)", [⟨"B", 1⟩, ⟨"C", 2⟩], 3, 2⟩ := by decide

example : parsePollMessage "📊 Vote\nLunch (2)\n• Pizza (3)" = none := by decide

example : parsePollMessage "POLL: A (9)\n• B (1)\n• C (2)" = none := by decide

example : parsePollMessage "POLL: t\nOPTION: a (0 votes)\nOPTION: b (0 votes)" =
    some ⟨"t", [⟨"a", 0⟩, ⟨"b", 0⟩], 0, 1⟩ := by decide

/-! ### Shared helper lemmas -/

/-- Header projection of a message: the literal date and time strings. -/
def hdrOf (m : Message) : String × String := (m.date, m.time)

/-- Header projection of a line: the first two capture groups when the line is
a header line. -/
def lineHdr (l : String) : Option (String × String) :=
  match matchHeader l with
  | some (d, t, _) => some (d, t)
  | none => none

theorem hdrOf_headerMsg (files : List String) (idx : Nat) (d t r : String) :
    hdrOf (headerMsg files idx d t r) = (d, t) := by
  unfold headerMsg
  dsimp only
  split
  · split <;> rfl
  · rfl

theorem processLine_cont (files : List String) (st : List Message × Option Message)
    (idx : Nat) (line : String) (h : matchHeader line = none) :
    processLine files st idx line =
      match st.2 with
      | some m => (st.1, some { m with message := m.message ++ "\n" ++ line })
      | none => st := by
  rcases st with ⟨msgs, last⟩
  simp only [processLine, h]

theorem runLines_hdr (files : List String) :
    ∀ (lines : List String) (i : Nat) (st : List Message × Option Message),
      (finalizeState (runLines files i st lines)).map hdrOf =
        (finalizeState st).map hdrOf ++ lines.filterMap lineHdr := by
  intro lines
  induction lines with
  | nil => intro i st; simp [runLines]
  | cons l ls ih =>
    intro i st
    rcases hm : matchHeader l with _ | ⟨d, t, r⟩
    · have hcont := processLine_cont files st i l hm
      have hhd : lineHdr l = none := by simp [lineHdr, hm]
      rcases st with ⟨msgs, last⟩
      cases last with
      | none =>
        simp only [runLines, hcont, ih, List.filterMap_cons, hhd]
      | some m =>
        simp only [runLines, hcont, ih, List.filterMap_cons, hhd]
        simp [finalizeState, hdrOf]
    · have hhd : lineHdr l = some (d, t) := by simp [lineHdr, hm]
      simp only [runLines, processLine, hm, ih, List.filterMap_cons, hhd]
      simp [finalizeState, hdrOf_headerMsg]

theorem length_filterMap_lineHdr :
    ∀ ls : List String, (ls.filterMap lineHdr).length =
      (ls.filter (fun l => (matchHeader l).isSome)).length := by
  intro ls
  induction ls with
  | nil => rfl
  | cons l ls ih =>
    rcases hm : matchHeader l with _ | ⟨d, t, r⟩ <;>
      simp [List.filterMap_cons, List.filter_cons, lineHdr, hm, ih]

/-! ### C1 -/

/-- C1: for every input text, `parseChat` emits exactly one message per
trimmed line matching the header pattern, and the output order is the input
order of those header lines: the sequence of (date, time) headers of the
output equals the sequence of captured (date, time) groups of the header
lines, and in particular the number of messages equals the number of header
lines. -/
theorem parseChat_header_count_order (chat : String) (files : List String) :
    (parseChat chat files).map hdrOf = (linesOf chat).filterMap lineHdr ∧
    (parseChat chat files).length =
      ((linesOf chat).filter (fun l => (matchHeader l).isSome)).length := by
  have h := runLines_hdr files (linesOf chat) 0 ([], none)
  have hmap : (parseChat chat files).map hdrOf = (linesOf chat).filterMap lineHdr := by
    simpa [parseChat, parseChatLines, finalizeState] using h
  refine ⟨hmap, ?_⟩
  have := congrArg List.length hmap
  simpa [length_filterMap_lineHdr] using this

/-! ### C2 -/

/-- C2 counterexample: a header-shaped line whose time has no am or pm marker
does not match the header pattern, and `parseChat` on that single line emits
no message at all, refuting the claim that the marker is optional. -/
theorem ampmMarker_required_counterexample :
    matchHeader "1/2/24, 10:30 - Alice: Hi" = none ∧
    parseChat "1/2/24, 10:30 - Alice: Hi" [] = [] := by decide

/-- C2 amended: the am or pm marker is mandatory in the header pattern; the
time must be followed, possibly after whitespace, by exactly two characters of
the class `[APMapm]`, in any casing including mixed case, and a line whose
time lacks the marker does not match as a message-start header. -/
theorem ampmMarker_mandatory_mixed_case (c1 c2 : Char)
    (h1 : isApmChar c1 = true) (h2 : isApmChar c2 = true) :
    matchHeader ("1/2/24, 10:30 " ++ String.mk [c1, c2] ++ " - x") =
      some ("1/2/24", "10:30 " ++ String.mk [c1, c2], "x") ∧
    matchHeader "1/2/24, 10:30 - x" = none := by
  simp only [isApmChar, Bool.or_eq_true, beq_iff_eq] at h1 h2
  refine ⟨?_, by decide⟩
  rcases h1 with ((((h1 | h1) | h1) | h1) | h1) | h1 <;>
    rcases h2 with ((((h2 | h2) | h2) | h2) | h2) | h2 <;>
      subst_vars <;> decide

/-- C2 witness: the amended statement at the mixed-case marker `aM`. -/
theorem ampmMarker_mandatory_mixed_case_witness :
    (isApmChar 'a' = true ∧ isApmChar 'M' = true) ∧
    matchHeader ("1/2/24, 10:30 " ++ String.mk ['a', 'M'] ++ " - x") =
      some ("1/2/24", "10:30 " ++ String.mk ['a', 'M'], "x") :=
  ⟨⟨by decide, by decide⟩, (ampmMarker_mandatory_mixed_case 'a' 'M' (by decide) (by decide)).1⟩

/-! ### C3 -/

/-- The continuation suffix a run of non-header lines appends to the body of
the accumulating message: each line preceded by a line break, in order. -/
def contJoin : List String → String
  | [] => ""
  | l :: ls => "\n" ++ l ++ contJoin ls

theorem runLines_cont (files : List String) :
    ∀ (ls : List String) (i : Nat) (msgs : List Message) (m : Message),
      (∀ l ∈ ls, matchHeader l = none) →
      runLines files i (msgs, some m) ls =
        (msgs, some { m with message := m.message ++ contJoin ls }) := by
  intro ls
  induction ls with
  | nil =>
    intro i msgs m _
    simp [runLines, contJoin]
  | cons l ls ih =>
    intro i msgs m h
    have hm : matchHeader l = none := h l (by simp)
    have hrest : ∀ l2 ∈ ls, matchHeader l2 = none := fun l2 hl2 => h l2 (by simp [hl2])
    simp only [runLines, processLine, hm]
    rw [ih (i + 1) msgs _ hrest]
    simp [contJoin, String.append_assoc]

/-- C3: a header line followed by any number of consecutive non-header lines
produces exactly one message, whose body is the body produced from the header
line with every continuation line appended after a line break, in original
order; scenario A instantiates this. -/
theorem multiline_body_reconstruction (files : List String) (header : String)
    (ls : List String) (m0 : Message)
    (hh : parseChatLines files [header] = [m0])
    (hc : ∀ l ∈ ls, matchHeader l = none) :
    parseChatLines files (header :: ls) =
      [{ m0 with message := m0.message ++ contJoin ls }] := by
  rcases hm : matchHeader header with _ | ⟨d, t, r⟩
  · simp [parseChatLines, runLines, processLine, hm, finalizeState] at hh
  · have hh2 : headerMsg files 0 d t r = m0 := by
      simpa [parseChatLines, runLines, processLine, hm, finalizeState] using hh
    simp only [parseChatLines, runLines, processLine, hm, finalizeState]
    rw [runLines_cont files ls 1 [] _ hc]
    simp [finalizeState, hh2]

/-- C3 witness: scenario A. -/
theorem multiline_body_reconstruction_witness :
    parseChat "1/2/24, 10:30 AM - Alice: Hello\nWorld" [] =
      [⟨0, "1/2/24", "10:30 AM", "Alice", "Hello\nWorld", none, "message", none⟩] := by
  have h := multiline_body_reconstruction []
      "1/2/24, 10:30 AM - Alice: Hello" ["World"]
      ⟨0, "1/2/24", "10:30 AM", "Alice", "Hello", none, "message", none⟩
      (by decide) (by decide)
  have heq : parseChat "1/2/24, 10:30 AM - Alice: Hello\nWorld" [] =
      parseChatLines [] ["1/2/24, 10:30 AM - Alice: Hello", "World"] := by decide
  rw [heq, h]
  decide

/-! ### C4 -/

/-- C4: on every header line, the sender-body split uses the first colon of
the trimmed rest only when its position is strictly positive; when no
qualifying colon exists (no colon at all, or the first colon at position 0)
the whole rest becomes the body of a system message whose sender is the
sentinel `System`, classified by `getSystemMessageType`; scenario B
instantiates the system case. -/
theorem colon_split_first_colon_guard (files : List String) (l d t r : String)
    (hm : matchHeader l = some (d, t, r)) :
    (∀ i, colonIdxOf (strTrim r).data = some i → 0 < i →
      parseChatLines files [l] = [authoredMsg files 0 d t (strTrim r) i]) ∧
    ((colonIdxOf (strTrim r).data = none ∨ colonIdxOf (strTrim r).data = some 0) →
      parseChatLines files [l] = [systemMsg 0 d t (strTrim r)]) := by
  constructor
  · intro i hi hpos
    simp [parseChatLines, runLines, processLine, hm, finalizeState, headerMsg, hi, hpos]
  · intro h
    rcases h with hnone | h0
    · simp [parseChatLines, runLines, processLine, hm, finalizeState, headerMsg, hnone]
    · simp [parseChatLines, runLines, processLine, hm, finalizeState, headerMsg, h0]

/-- C4 witness: scenario B, a system message classified as joined. -/
theorem colon_split_first_colon_guard_witness :
    parseChatLines [] ["1/2/24, 10:31 AM - Bob joined using this group\x27s invite link"] =
      [⟨0, "1/2/24", "10:31 AM", "System", "Bob joined using this group\x27s invite link",
        none, "system", some "joined"⟩] := by
  have h := (colon_split_first_colon_guard []
      "1/2/24, 10:31 AM - Bob joined using this group\x27s invite link"
      "1/2/24" "10:31 AM" "Bob joined using this group\x27s invite link"
      (by decide)).2 (Or.inl (by decide))
  rw [h]
  decide

/-! ### C5 -/

/-- C5 counterexample: with `photo.jpg` available in the file table, a
`<attached: photo.jpg>` marker on a continuation line is neither resolved nor
stripped — the parsed message keeps the marker in its body and carries no
attachment — even though the same marker alone is resolvable by
`extractAttachment`.  This refutes the claim that the resolver is run against
the fully reconstructed multi-line body. -/
theorem resolver_continuation_counterexample :
    parseChat "1/2/24, 10:30 AM - Alice: Hi\n<attached: photo.jpg>" ["photo.jpg"] =
      [⟨0, "1/2/24", "10:30 AM", "Alice", "Hi\n<attached: photo.jpg>",
        none, "message", none⟩] ∧
    extractAttachment "<attached: photo.jpg>" ["photo.jpg"] =
      some ⟨"photo.jpg", "image", "<attached: photo.jpg>"⟩ := by decide

/-- C5 amended: for an authored message the resolver runs against only the
header-line portion of the body — the trimmed text after the sender colon of
the header line — and continuation lines never change the attachment field,
so a marker on a continuation line is not resolved. -/
theorem resolver_header_text_only (files : List String) (l d t r : String) (i : Nat)
    (ls : List String)
    (hm : matchHeader l = some (d, t, r))
    (hi : colonIdxOf (strTrim r).data = some i) (hpos : 0 < i)
    (hc : ∀ l2 ∈ ls, matchHeader l2 = none) :
    (parseChatLines files (l :: ls)).map Message.attachment =
      [extractAttachment (String.mk (trimChars ((strTrim r).data.drop (i + 1)))) files] := by
  simp only [parseChatLines, runLines, processLine, hm, finalizeState]
  rw [runLines_cont files ls 1 [] _ hc]
  simp [finalizeState, headerMsg, hi, hpos, authoredMsg]

/-- C5 witness: the amended statement at the counterexample input, where the
header-line text `Hi` resolves to no attachment. -/
theorem resolver_header_text_only_witness :
    (parseChatLines ["photo.jpg"]
        ["1/2/24, 10:30 AM - Alice: Hi", "<attached: photo.jpg>"]).map Message.attachment =
      [none] := by
  have h := resolver_header_text_only ["photo.jpg"]
      "1/2/24, 10:30 AM - Alice: Hi" "1/2/24" "10:30 AM" "Alice: Hi" 5
      ["<attached: photo.jpg>"] (by decide) (by decide) (by decide) (by decide)
  rw [h]
  decide

/-! ### C6 and C7: the bracketed marker pattern on a symbolic name -/

theorem takeWhile_append_stop {α} (p : α → Bool) (l r : List α) (x : α)
    (h : ∀ c ∈ l, p c = true) (hx : p x = false) :
    (l ++ x :: r).takeWhile p = l := by
  induction l with
  | nil => simp [List.takeWhile_cons, hx]
  | cons c cs ih =>
    have hc := h c (by simp)
    simp [List.takeWhile_cons, hc, ih (fun d hd => h d (by simp [hd]))]

theorem dropWhile_append_stop {α} (p : α → Bool) (l r : List α) (x : α)
    (h : ∀ c ∈ l, p c = true) (hx : p x = false) :
    (l ++ x :: r).dropWhile p = x :: r := by
  induction l with
  | nil => simp [List.dropWhile_cons, hx]
  | cons c cs ih =>
    have hc := h c (by simp)
    simp [List.dropWhile_cons, hc, ih (fun d hd => h d (by simp [hd]))]

theorem marker_body_data (name : String) :
    ("<attached: " ++ name ++ ">").data =
      '<' :: 'a' :: 't' :: 't' :: 'a' :: 'c' :: 'h' :: 'e' :: 'd' :: ':' :: ' ' ::
        (name.data ++ ['>']) := by
  simp [String.data_append]

theorem tryAttachedAt_marker (name : String)
    (h2 : ∀ c ∈ name.data, c ≠ '>') :
    tryAttachedAt ('<' :: 'a' :: 't' :: 't' :: 'a' :: 'c' :: 'h' :: 'e' :: 'd' :: ':' :: ' ' ::
        (name.data ++ ['>'])) =
      some (' ' :: name.data,
        '<' :: 'a' :: 't' :: 't' :: 'a' :: 'c' :: 'h' :: 'e' :: 'd' :: ':' :: ' ' ::
          (name.data ++ ['>'])) := by
  have hdrop : dropCiTag ['<', 'a', 't', 't', 'a', 'c', 'h', 'e', 'd', ':']
      ('<' :: 'a' :: 't' :: 't' :: 'a' :: 'c' :: 'h' :: 'e' :: 'd' :: ':' :: ' ' ::
        (name.data ++ ['>'])) =
      some (['<', 'a', 't', 't', 'a', 'c', 'h', 'e', 'd', ':'],
            ' ' :: (name.data ++ ['>'])) := rfl
  have hall : ∀ c ∈ ' ' :: name.data, (decide (c ≠ '>')) = true := by
    intro c hc
    rcases List.mem_cons.mp hc with rfl | hc
    · decide
    · simpa using h2 c hc
  have hshape : ' ' :: (name.data ++ ['>']) = (' ' :: name.data) ++ '>' :: [] := by simp
  have htake := takeWhile_append_stop (fun c => decide (c ≠ '>')) (' ' :: name.data) [] '>'
      hall (by decide)
  have hdrop2 := dropWhile_append_stop (fun c => decide (c ≠ '>')) (' ' :: name.data) [] '>'
      hall (by decide)
  unfold tryAttachedAt
  rw [hdrop]
  simp only [List.span_eq_take_drop, hshape, htake, hdrop2]
  simp

theorem attachFromTag_marker (name : String) (files : List String)
    (h2 : ∀ c ∈ name.data, c ≠ '>') :
    attachFromTag ("<attached: " ++ name ++ ">").data files =
      (if files.contains (String.mk (trimChars name.data)) then
        some ⟨String.mk (trimChars name.data),
              getFileType (String.mk (trimChars name.data)),
              "<attached: " ++ name ++ ">"⟩
       else none) := by
  have htrim : trimChars (' ' :: name.data) = trimChars name.data := by
    simp [trimChars, List.dropWhile_cons, isWsChar]
  have hmk : String.mk ("<attached: " ++ name ++ ">").data = "<attached: " ++ name ++ ">" := rfl
  rw [marker_body_data] at hmk ⊢
  unfold attachFromTag findAttachedTag
  rw [tryAttachedAt_marker name h2]
  simp only [htrim, hmk]

theorem isPrefixOf_self (l : List Char) : l.isPrefixOf l = true := by
  induction l with
  | nil => rfl
  | cons c cs ih => simp [List.isPrefixOf, ih]

theorem removeFirstOcc_self (l : List Char) : removeFirstOcc l l = [] := by
  cases l with
  | nil => rfl
  | cons c cs => simp [removeFirstOcc, isPrefixOf_self, List.drop_length]

/-- C7: for a body that is exactly one resolvable bracketed attachment marker
and no other text — the bracketed form with an already trimmed, available
name — the resolver returns the descriptor whose filename is that name, whose
category is derived from the extension by `getFileType`, and whose marker
text is the whole body; stripping the marker then leaves the empty residual
body.  Scenario D instantiates this. -/
theorem marker_only_body_strips_empty (name : String) (files : List String)
    (h2 : ∀ c ∈ name.data, c ≠ '>')
    (h3 : trimChars name.data = name.data)
    (h4 : files.contains name = true) :
    extractAttachment ("<attached: " ++ name ++ ">") files =
      some ⟨name, getFileType name, "<attached: " ++ name ++ ">"⟩ ∧
    stripAttachment ("<attached: " ++ name ++ ">")
      ⟨name, getFileType name, "<attached: " ++ name ++ ">"⟩ = "" := by
  constructor
  · have hne : ("<attached: " ++ name ++ ">").data.isEmpty = false := by
      rw [marker_body_data]; rfl
    unfold extractAttachment
    rw [hne]
    have h := attachFromTag_marker name files h2
    rw [h3] at h
    have hmk : String.mk name.data = name := rfl
    rw [hmk] at h
    rw [h, h4]
    simp
  · unfold stripAttachment
    simp [removeFirstOcc_self, trimChars]

/-- C7 witness: scenario D. -/
theorem marker_only_body_strips_empty_witness :
    extractAttachment "<attached: photo.jpg>" ["photo.jpg"] =
      some ⟨"photo.jpg", "image", "<attached: photo.jpg>"⟩ ∧
    stripAttachment "<attached: photo.jpg>"
      ⟨"photo.jpg", "image", "<attached: photo.jpg>"⟩ = "" := by
  have h := marker_only_body_strips_empty "photo.jpg" ["photo.jpg"]
      (by decide) (by decide) (by decide)
  have hb : "<attached: " ++ "photo.jpg" ++ ">" = "<attached: photo.jpg>" := by decide
  have hcat : getFileType "photo.jpg" = "image" := by decide
  rw [hb, hcat] at h
  exact h

theorem parenTagAt_no_paren {cs : List Char} (h : ∀ c ∈ cs, c ≠ '(') :
    parenTagAt cs = none := by
  cases cs with
  | nil => rfl
  | cons c r =>
    have hc : c ≠ '(' := h c (by simp)
    simp [parenTagAt, hc]

theorem scanParenGrow_no_paren :
    ∀ cs : List Char, (∀ c ∈ cs, c ≠ '(') → ∀ g1, scanParenGrow g1 cs = none := by
  intro cs
  induction cs with
  | nil => intro _ g1; rfl
  | cons c rest ih =>
    intro h g1
    have hpt : parenTagAt (rest.dropWhile isWsChar) = none := by
      apply parenTagAt_no_paren
      intro x hx
      exact h x (List.mem_cons_of_mem c (List.Sublist.mem hx (List.dropWhile_sublist isWsChar)))
    simp only [scanParenGrow, hpt]
    exact ih (fun d hd => h d (by simp [hd])) _

/-- C6 counterexample: a body containing a bracketed marker whose name is
absent from the file table can still resolve an attachment through a fallback
pattern, and `parseChat` then strips the fallback text from the body — so the
resolver does not yield none and the body is not left untouched as claimed. -/
theorem absent_marker_counterexample :
    extractAttachment "<attached: missing.jpg> IMG-1.jpg" ["IMG-1.jpg"] =
      some ⟨"IMG-1.jpg", "image", "IMG-1.jpg"⟩ ∧
    parseChat "1/2/24, 10:30 AM - Alice: <attached: missing.jpg> IMG-1.jpg" ["IMG-1.jpg"] =
      [⟨0, "1/2/24", "10:30 AM", "Alice", "<attached: missing.jpg>",
        some ⟨"IMG-1.jpg", "image", "IMG-1.jpg"⟩, "message", none⟩] := by decide

/-- C6 amended: an unresolvable bracketed marker contributes nothing and its
text is never stripped, but it does not short-circuit the resolver: the
parenthetical and bare-filename patterns are still tried, and the resolver
yields none exactly when they also fail — in particular whenever the body has
no parenthesis and no resolvable bare filename, as in scenario E where the
body is exactly the marker. -/
theorem absent_marker_unresolved (name : String) (files : List String)
    (h2 : ∀ c ∈ name.data, c ≠ '>')
    (h5 : ∀ c ∈ name.data, c ≠ '(')
    (h3 : files.contains (String.mk (trimChars name.data)) = false)
    (h4 : attachFromBare ("<attached: " ++ name ++ ">").data files = none) :
    extractAttachment ("<attached: " ++ name ++ ">") files = none := by
  have hne : ("<attached: " ++ name ++ ">").data.isEmpty = false := by
    rw [marker_body_data]; rfl
  have hnp : ∀ c ∈ ("<attached: " ++ name ++ ">").data, c ≠ '(' := by
    rw [marker_body_data]
    intro c hc
    have hsplit : c = '<' ∨ c = 'a' ∨ c = 't' ∨ c = 'c' ∨ c = 'h' ∨ c = 'e' ∨ c = 'd' ∨
        c = ':' ∨ c = ' ' ∨ c = '>' ∨ c ∈ name.data := by
      simp at hc
      tauto
    rcases hsplit with hc | hc | hc | hc | hc | hc | hc | hc | hc | hc | hc
    all_goals first
      | (subst hc; decide)
      | (exact h5 c hc)
  have hparen : attachFromParen ("<attached: " ++ name ++ ">").data files = none := by
    unfold attachFromParen
    rw [scanParenGrow_no_paren _ hnp []]
  unfold extractAttachment
  rw [hne, attachFromTag_marker name files h2, h3, hparen, h4]
  simp

/-- C6 witness: scenario E — the body is exactly the unresolvable marker, the
resolver yields none, and `parseChat` keeps the marker intact in the body. -/
theorem absent_marker_unresolved_witness :
    extractAttachment "<attached: missing.jpg>" ["photo.jpg"] = none ∧
    parseChat "1/2/24, 10:30 AM - Alice: <attached: missing.jpg>" ["photo.jpg"] =
      [⟨0, "1/2/24", "10:30 AM", "Alice", "<attached: missing.jpg>",
        none, "message", none⟩] := by
  constructor
  · have h := absent_marker_unresolved "missing.jpg" ["photo.jpg"]
      (by decide) (by decide) (by decide) (by decide)
    have hb : "<attached: " ++ "missing.jpg" ++ ">" = "<attached: missing.jpg>" := by decide
    rw [hb] at h
    exact h
  · decide

/-! ### C8 -/

/-- C8: `parsePollMessage` returns none whenever the text has fewer than 3
trimmed nonempty lines, and returns none whenever fewer than 2 option lines
are successfully extracted, even when the poll indicator and option indicator
checks pass. -/
theorem poll_minimums_none (msg : String) :
    ((pollLines msg).length < 3 → parsePollMessage msg = none) ∧
    ((scanOptions (pollLines msg)).length < 2 → parsePollMessage msg = none) := by
  constructor
  · intro h
    simp only [parsePollMessage]
    split_ifs <;> rfl
  · intro h
    simp only [parsePollMessage]
    split_ifs <;> rfl

/-- C8 witness: a two-line poll text, and a three-line poll text with the
indicators present but only one extractable option line. -/
theorem poll_minimums_none_witness :
    parsePollMessage "POLL: Lunch?\nOPTION: Pizza (3 votes)" = none ∧
    parsePollMessage "POLL: t\nOPTION: a (1 vote)\nx" = none :=
  ⟨(poll_minimums_none "POLL: Lunch?\nOPTION: Pizza (3 votes)").1 (by decide),
   (poll_minimums_none "POLL: t\nOPTION: a (1 vote)\nx").2 (by decide)⟩

/-! ### C9 -/

theorem sumVotes_eq (l : List PollOption) :
    ∀ n, l.foldl (fun s o => s + o.votes) n = n + (l.map PollOption.votes).sum := by
  induction l with
  | nil => intro n; simp
  | cons o l ih => intro n; simp [List.sum_cons, ih]; omega

theorem poll_result_fields (ttl : String) (opts : List PollOption) (p : Poll)
    (h : (⟨ttl, opts, sumVotes opts, maxVotesFloor opts⟩ : Poll) = p) :
    p.totalVotes = (p.options.map PollOption.votes).sum ∧
    p.maxVotes = Nat.max 1 ((p.options.map PollOption.votes).foldr Nat.max 0) ∧
    p.maxVotes ≠ 0 := by
  subst h
  refine ⟨?_, ?_, ?_⟩
  · simpa [sumVotes] using sumVotes_eq opts 0
  · show maxVotesFloor opts = _
    unfold maxVotesFloor maxVotesRaw
    by_cases hz : ((opts.map fun o => o.votes).foldr Nat.max 0) = 0
    · simp [hz]
    · rw [if_neg hz]
      have h1 : 1 ≤ (opts.map fun o => o.votes).foldr Nat.max 0 := by omega
      simp [Nat.max_eq_right h1]
  · show maxVotesFloor opts ≠ 0
    unfold maxVotesFloor
    split_ifs with hz
    · omega
    · exact hz

/-- C9: in every poll structure `parsePollMessage` returns, `totalVotes` is
the sum of the option vote counts and `maxVotes` is the maximum vote count
floored at 1, hence never 0 even when every option has 0 votes; scenario C
instantiates this. -/
theorem poll_aggregate_invariants (msg : String) (p : Poll)
    (h : parsePollMessage msg = some p) :
    p.totalVotes = (p.options.map PollOption.votes).sum ∧
    p.maxVotes = Nat.max 1 ((p.options.map PollOption.votes).foldr Nat.max 0) ∧
    p.maxVotes ≠ 0 := by
  simp only [parsePollMessage] at h
  split_ifs at h
  all_goals
    first
      | exact Option.noConfusion h
      | exact poll_result_fields _ _ _ (Option.some_inj.mp h)

/-- C9 witness: scenario C. -/
theorem poll_aggregate_invariants_witness :
    parsePollMessage "POLL: Lunch?\nOPTION: Pizza (3 votes)\nOPTION: Sushi (1 vote)" =
      some ⟨"Lunch?", [⟨"Pizza", 3⟩, ⟨"Sushi", 1⟩], 4, 3⟩ ∧
    ((⟨"Lunch?", [⟨"Pizza", 3⟩, ⟨"Sushi", 1⟩], 4, 3⟩ : Poll).totalVotes =
       (((⟨"Lunch?", [⟨"Pizza", 3⟩, ⟨"Sushi", 1⟩], 4, 3⟩ : Poll).options.map
           PollOption.votes).sum) ∧
     (⟨"Lunch?", [⟨"Pizza", 3⟩, ⟨"Sushi", 1⟩], 4, 3⟩ : Poll).maxVotes =
       Nat.max 1 (((⟨"Lunch?", [⟨"Pizza", 3⟩, ⟨"Sushi", 1⟩], 4, 3⟩ : Poll).options.map
           PollOption.votes).foldr Nat.max 0) ∧
     (⟨"Lunch?", [⟨"Pizza", 3⟩, ⟨"Sushi", 1⟩], 4, 3⟩ : Poll).maxVotes ≠ 0) :=
  ⟨by decide,
   poll_aggregate_invariants "POLL: Lunch?\nOPTION: Pizza (3 votes)\nOPTION: Sushi (1 vote)"
     ⟨"Lunch?", [⟨"Pizza", 3⟩, ⟨"Sushi", 1⟩], 4, 3⟩ (by decide)⟩

/-! ### C10 -/

/-- C10: the option scan covers exactly the lines from the second one onward,
in order: the first line never contributes an option whatever its shape (the
scan result does not depend on it at all), and the second line is scanned
even while serving as the title when the first line lacks the `POLL:` prefix,
so a title line shaped like `text (N)` is also counted as an option.  The
concrete inputs carry the mojibake indicator and bullet sequences exactly as
pollParser.js stores them (lines 27 and 37-39, 54): the first input's first
line is the chart-symbol sequence followed by ` Vote`, and the option lines
start with the bullet sequence. -/
theorem poll_option_scan_window :
    (∀ (a b : String) (rest : List String),
       scanOptions (a :: rest) = scanOptions (b :: rest)) ∧
    parsePollMessage
        "\u00F0\u0178\u201C\u0160 Vote\nLunch (2)\n\u00E2\u20AC\u00A2 Pizza (3)" =
      some ⟨"Lunch (2)", [⟨"Lunch", 2⟩, ⟨"Pizza", 3⟩], 5, 3⟩ ∧
    parsePollMessage
        "POLL: A (9)\n\u00E2\u20AC\u00A2 B (1)\n\u00E2\u20AC\u00A2 C (2)" =
      some ⟨"A (9)", [⟨"B", 1⟩, ⟨"C", 2⟩], 3, 2⟩ :=
  ⟨fun _ _ _ => rfl, by decide, by decide⟩
